import Mathlib

/-!
Verification of the patronictl cluster-administration core (`patroni/ctl.py`).

We give a shallow embedding of the role resolver (`get_all_members`,
`get_all_members_leader_first`, `get_members`), the failover/switchover
orchestrator (`_do_failover_or_switchover` and the `failover` command wrapper),
the `restart` command, the pause/resume wait loop
(`wait_until_pause_is_applied`, `toggle_pause`) and the topology builder
(`topology_sort` / `generate_topology`), and prove or refute the spec claims
about them.

Modelling conventions:
 * Python truthiness of optional strings (`None` and `""` are falsy) is the
   `truthy` predicate below.
 * Interactive prompts, confirmations and HTTP responses are supplied by
   oracles (plain records of answers / response functions); wall-clock
   timestamps printed in messages are omitted.
 * `datetime` objects are modelled by their ISO string, so
   `scheduled_at.isoformat()` is the identity.
 * Side effects (echo, table display, prompts, member API requests, DCS
   reads/writes) are recorded in an explicit trace of `Effect`s; a raised
   `PatroniCtlException` is the `Option String` component of a result.
-/

namespace PatroniCtl

/-- Python truthiness for an optional string: `None` and `""` are falsy. -/
def truthy : Option String → Bool
  | none => false
  | some s => s ≠ ""

/-- One cluster member, as read from a DCS snapshot.  `data_role`,
`scheduled_restart`, `pause` and `index` model the fields of `member.data`
used by ctl (`data.get('role')`, truthiness of `data.get('scheduled_restart')`,
`data.get('pause', False)`, and the DCS revision stamp). -/
structure Member where
  name : String
  api_url : Option String := none
  nofailover : Bool := false
  data_role : String := "replica"
  scheduled_restart : Bool := false
  pause : Bool := false
  index : Nat := 0
  deriving Repr, DecidableEq

/-- The part of a cluster snapshot that `get_all_members` reads from each
Citus group: the leader (wrapping its member) and the member list. -/
structure BaseCluster where
  leader : Option Member := none
  members : List Member := []
  deriving Repr, DecidableEq

/-- A cluster snapshot.  `workers` is the Citus group-id → cluster mapping
(present only for sharded deployments).  `paused` models
`get_global_config(cluster).is_paused` and `standby` models
`is_standby_cluster` (both accessors live in `patroni/config.py`, outside the
embedded source; they read the cluster's dynamic configuration, per the spec's
maintenance-mode description).  `loop_wait` is `config.data.get('loop_wait')`. -/
structure Cluster where
  leader : Option Member := none
  members : List Member := []
  workers : List (Nat × BaseCluster) := []
  paused : Bool := false
  standby : Bool := false
  loop_wait : Option Nat := none
  deriving Repr, DecidableEq

/-- The top-level cluster viewed as one entry of the group mapping. -/
def Cluster.base (c : Cluster) : BaseCluster := ⟨c.leader, c.members⟩

/-- The `{0: cluster}` mapping, updated with `cluster.workers` when the
deployment is Citus and no `--group` was given (`get_all_members`, first
lines). -/
def clustersOf (citus : Bool) (c : Cluster) (group : Option Nat) : List BaseCluster :=
  c.base :: (if citus ∧ group = none then c.workers.map (·.2) else [])

/-- Embedding of `get_all_members(obj, cluster, group, role)`. -/
def get_all_members (citus : Bool) (c : Cluster) (group : Option Nat)
    (role : String) : List Member :=
  let clusters := clustersOf citus c group
  if role = "leader" ∨ role = "master" ∨ role = "primary" ∨ role = "standby-leader" then
    let role' := if role = "primary" then "master"
      else if role = "standby-leader" then "standby_leader" else role
    clusters.filterMap fun cl =>
      match cl.leader with
      | none => none
      | some L =>
        if L.name ≠ "" ∧ (role' = "leader"
            ∨ (L.data_role ≠ "master" ∧ role' = "standby_leader")
            ∨ (L.data_role ≠ "standby_leader" ∧ role' = "master"))
        then some L else none
  else
    clusters.flatMap fun cl =>
      let leader_name : Option String := cl.leader.map Member.name
      cl.members.filter fun m =>
        role = "any" ∨ ((role = "replica" ∨ role = "standby") ∧ some m.name ≠ leader_name)

/-- All members of the group union, in iteration order: the requested cluster
followed by every worker group when Citus and no explicit group. -/
def unionMembers (citus : Bool) (c : Cluster) (group : Option Nat) : List Member :=
  (clustersOf citus c group).flatMap BaseCluster.members

/-- Embedding of `get_all_members_leader_first(cluster)`: the leader first when
it has a non-empty `api_url`, then every other member with a truthy `api_url`. -/
def get_all_members_leader_first (c : Cluster) : List Member :=
  let leader_name : Option String :=
    match c.leader with
    | some L => if truthy L.api_url then some L.name else none
    | none => none
  (if truthy leader_name then c.leader.toList else []) ++
    c.members.filter fun m =>
      truthy m.api_url ∧ (match leader_name with
        | none => true
        | some s => m.name ≠ s : Bool)

/-- The body of a `POST /failover` or `POST /switchover` request
(`failover_value` in `_do_failover_or_switchover`). -/
structure FailoverBody where
  leader : Option String
  candidate : Option String
  scheduled_at : Option String
  deriving Repr, DecidableEq

/-- The body of a `POST /restart` request (`content` in `restart`). -/
structure RestartBody where
  restart_pending : Bool := false
  postgres_version : Option String := none
  schedule : Option String := none
  timeout : Option String := none
  deriving Repr, DecidableEq

/-- Bodies of member-API requests recorded in the effect trace. -/
inductive ReqBody where
  | empty
  | failover (b : FailoverBody)
  | restart (b : RestartBody)
  | reinitialize (force : Bool)
  | configPatch (pause : Option Bool)
  deriving Repr, DecidableEq

/-- Observable actions of a ctl command, in program order. -/
inductive Effect where
  | echo (msg : String)
  | display
  | prompt (what : String)
  | confirm (what : String)
  | logWarning (msg : String)
  | dcsRead
  | apiPost (memberName : String) (endpoint : String) (body : ReqBody)
  | apiDelete (memberName : String) (endpoint : String)
  | manualFailover (leader : Option String) (candidate : Option String)
      (scheduledAt : Option String)
  deriving Repr, DecidableEq

/-- An effect that mutates cluster state: a member-API POST or DELETE, or a
direct DCS `manual_failover` write.  Echoes, table displays, prompts, log
lines and DCS reads are not mutations. -/
def Effect.isMutation : Effect → Bool
  | .apiPost _ _ _ => true
  | .apiDelete _ _ => true
  | .manualFailover _ _ _ => true
  | _ => false

/-- A trace containing no mutating network call. -/
def noMutation (l : List Effect) : Bool := l.all fun e => !e.isMutation

/-- Outcome of one member-API request: a status/body pair, or a raised
transport error (e.g. connection refused). -/
inductive ApiOutcome where
  | ok (status : Nat) (data : String)
  | raise
  deriving Repr, DecidableEq

/-- A plain status/body response (used where ctl does not catch exceptions). -/
structure ApiResp where
  status : Nat
  data : String
  deriving Repr, DecidableEq

deriving instance DecidableEq for Except

/-- Model of `str.title()` for the two action names used by ctl. -/
def titleOf (action : String) : String :=
  if action = "failover" then "Failover"
  else if action = "switchover" then "Switchover" else action

/-- The pattern list is an initial segment of the other list. -/
def beginsWith : List Char → List Char → Bool
  | [], _ => true
  | _ :: _, [] => false
  | p :: ps, c :: cs => p = c && beginsWith ps cs

/-- The pattern list occurs contiguously somewhere in the other list. -/
def hasSub (pat : List Char) : List Char → Bool
  | [] => pat.isEmpty
  | c :: cs => beginsWith pat (c :: cs) || hasSub pat cs

/-- Test of `pat in s` for the 501 marker test (`b'Server does not support this
operation' in r.data`). -/
def containsText (s pat : String) : Bool := hasSub pat.data s.data

/-- Embedding of `parse_scheduled(scheduled)`.  `dateutil.parser.parse` plus
the local-timezone default is the external parameter `parse`; a parsed
timestamp is represented by its ISO string (so `isoformat` is the identity).
`none` and the literal `"now"` (and `""`, which Python's `or` also maps to
`"now"`) mean immediate. -/
def parseScheduled (parse : String → Option String) (scheduled : Option String) :
    Except String (Option String) :=
  match scheduled with
  | none => .ok none
  | some s =>
    if s = "" ∨ s = "now" then .ok none
    else match parse s with
      | some t => .ok (some t)
      | none => .error ("Unable to parse scheduled timestamp (" ++ s ++
          "). It should be in an unambiguous format (e.g. ISO 8601)")

/-- Lines 739-741 of `_do_failover_or_switchover`: the failover/switchover
candidates are the members other than the acting leader that are not tagged
`nofailover`, by name, sorted for deterministic output.  `leader` is the
resolved leader value (`None` possible), compared with `m.name != leader`. -/
def candidateNamesOf (members : List Member) (leader : Option String) : List String :=
  ((members.filter fun m => some m.name ≠ leader ∧ m.nofailover = false).map
    Member.name).insertionSort (· ≤ ·)

/-- Leader resolution in `_do_failover_or_switchover` (lines 727-733): an
explicit `--leader` wins; otherwise under `--force` or for a failover the
snapshot leader's name is used; otherwise the operator is prompted
(`promptAnswer`). -/
def resolveLeader (action : String) (force : Bool) (leaderArg : Option String)
    (c : Cluster) (promptAnswer : String) : Option String :=
  match leaderArg with
  | some s => some s
  | none =>
    if force ∨ action = "failover" then c.leader.map Member.name
    else some promptAnswer

/-- Test `cluster.leader is None or not cluster.leader.name` (line 724). -/
def noLeader (c : Cluster) : Bool :=
  match c.leader with
  | none => true
  | some L => L.name = ""

/-- Test `leader is not None and cluster.leader and cluster.leader.member.name !=
leader` (line 735). -/
def leaderMismatch (c : Cluster) (leader : Option String) : Bool :=
  match leader, c.leader with
  | some s, some L => L.name ≠ s
  | _, _ => false

/-- Interactive answers and member-API behaviour for one
`_do_failover_or_switchover` run.  `api n` is the outcome of the n-th POST of
the dispatch phase (`0` the first request, `1` the legacy-failover retry). -/
structure FOOracle where
  citusGroupAnswer : Nat := 0
  leaderAnswer : String := ""
  candidateAnswer : String := ""
  scheduledAnswer : String := ""
  confirmAnswer : Bool := true
  citusCluster : Cluster := {}
  api : Nat → ApiOutcome := fun _ => .raise

/-- Dispatch phase of `_do_failover_or_switchover` (lines 790-814): pick the
target member (the leader if any, else the candidate member), POST the action,
retry a 501 "Server does not support this operation" switchover as a legacy
failover, re-read and display on 200/202, report other statuses, and fall back
to `dcs.manual_failover(leader, candidate, scheduled_at)` when the request
raises.  The final `output_members` display is skipped when a bad status made
the function return early. -/
def dispatchPhase (action : String) (c : Cluster) (leader candidate : Option String)
    (scheduled_at : Option String) (api : Nat → ApiOutcome) : List Effect :=
  let fv : FailoverBody := ⟨leader, candidate, scheduled_at⟩
  let fallback : List Effect :=
    [Effect.logWarning "Failing over to DCS",
     Effect.echo ("Could not " ++ action ++ " using Patroni api, falling back to DCS"),
     Effect.manualFailover leader candidate scheduled_at,
     Effect.display]
  match (match c.leader with
         | some L => some L
         | none => c.members.find? fun m => some m.name = candidate) with
  | none => fallback
  | some m =>
    let e1 := Effect.apiPost m.name action (.failover fv)
    match api 0 with
    | .raise => e1 :: fallback
    | .ok st data =>
      if st = 501 ∧ action = "switchover" ∧
          containsText data "Server does not support this operation" then
        let e2 := Effect.apiPost m.name "failover" (.failover fv)
        match api 1 with
        | .raise => e1 :: e2 :: fallback
        | .ok st2 data2 =>
          if st2 = 200 ∨ st2 = 202 then
            [e1, e2, Effect.dcsRead, Effect.echo data2, Effect.display]
          else
            [e1, e2, Effect.echo (titleOf action ++ " failed, details: " ++
              toString st2 ++ ", " ++ data2)]
      else if st = 200 ∨ st = 202 then
        [e1, Effect.dcsRead, Effect.echo data, Effect.display]
      else
        [e1, Effect.echo (titleOf action ++ " failed, details: " ++
          toString st ++ ", " ++ data)]

/-- The working cluster of `_do_failover_or_switchover`: re-read for the
prompted group in the Citus-without-group interactive path, otherwise the
first snapshot. -/
def foCluster (citus : Bool) (group : Option Nat) (o : FOOracle)
    (cluster0 : Cluster) : Cluster :=
  if citus ∧ group = none then o.citusCluster else cluster0

/-- The resolved leader value of a `_do_failover_or_switchover` run. -/
def foLeader (citus : Bool) (action : String) (group : Option Nat)
    (leaderArg : Option String) (force : Bool) (o : FOOracle)
    (cluster0 : Cluster) : Option String :=
  resolveLeader action force leaderArg (foCluster citus group o cluster0)
    o.leaderAnswer

/-- Candidate resolution (line 746-747): prompt unless supplied or forced. -/
def foCandidate (force : Bool) (candidateArg : Option String) (o : FOOracle) :
    Option String :=
  if candidateArg = none ∧ ¬force then some o.candidateAnswer else candidateArg

/-- The parsed switchover schedule: prompt for one unless supplied or forced,
then `parse_scheduled`; failovers never carry a schedule. -/
def foParsed (action : String) (force : Bool) (scheduled : Option String)
    (parse : String → Option String) (o : FOOracle) :
    Except String (Option String) :=
  if action = "switchover" then
    parseScheduled parse
      (if scheduled = none ∧ ¬force then some o.scheduledAnswer else scheduled)
  else .ok none

/-- Effects printed up to the citus-group prompt. -/
def foEffs1 (citus : Bool) (group : Option Nat) : List Effect :=
  [Effect.echo "Current cluster topology", Effect.display] ++
    (if citus ∧ group = none then [Effect.prompt "Citus group", Effect.dcsRead]
      else [])

/-- Effects printed up to the leader prompt. -/
def foEffs2 (citus : Bool) (group : Option Nat) (leaderArg : Option String)
    (force : Bool) (action : String) (o : FOOracle) (cluster0 : Cluster) :
    List Effect :=
  foEffs1 citus group ++
    (if leaderArg = none ∧ ¬(force ∨ action = "failover") then
      [Effect.prompt (if (foCluster citus group o cluster0).standby
        then "Standby Leader" else "Primary")] else [])

/-- Effects printed up to the candidate prompt. -/
def foEffs3 (citus : Bool) (group : Option Nat) (leaderArg : Option String)
    (force : Bool) (action : String) (o : FOOracle) (cluster0 : Cluster)
    (candidateArg : Option String) : List Effect :=
  foEffs2 citus group leaderArg force action o cluster0 ++
    (if candidateArg = none ∧ ¬force then [Effect.prompt "Candidate"] else [])

/-- Effects printed up to the schedule prompt. -/
def foEffs4 (citus : Bool) (group : Option Nat) (leaderArg : Option String)
    (force : Bool) (action : String) (o : FOOracle) (cluster0 : Cluster)
    (candidateArg scheduled : Option String) : List Effect :=
  foEffs3 citus group leaderArg force action o cluster0 candidateArg ++
    (if action = "switchover" ∧ scheduled = none ∧ ¬force then
      [Effect.prompt "When should the switchover take place"] else [])

/-- Effects printed up to the confirmation. -/
def foEffs5 (citus : Bool) (group : Option Nat) (leaderArg : Option String)
    (force : Bool) (action : String) (o : FOOracle) (cluster0 : Cluster)
    (candidateArg scheduled : Option String) : List Effect :=
  foEffs4 citus group leaderArg force action o cluster0 candidateArg scheduled ++
    (if force then [] else [Effect.confirm action])

/-- Embedding of `_do_failover_or_switchover(obj, action, cluster_name, group,
leader, candidate, force, scheduled)` (lines 703-814).  The result is the
effect trace plus the message of the raised `PatroniCtlException`, if any. -/
def doFailoverOrSwitchover (citus : Bool) (action : String) (clusterName : String)
    (group : Option Nat) (leaderArg candidateArg : Option String) (force : Bool)
    (scheduled : Option String) (parse : String → Option String) (o : FOOracle)
    (cluster0 : Cluster) : List Effect × Option String :=
  if citus ∧ group = none ∧ force then
    ([Effect.echo "Current cluster topology", Effect.display],
     some "For Citus clusters the --group must me specified")
  else if action = "switchover" ∧ noLeader (foCluster citus group o cluster0) then
    (foEffs1 citus group, some "This cluster has no leader")
  else if leaderMismatch (foCluster citus group o cluster0)
      (foLeader citus action group leaderArg force o cluster0) then
    (foEffs2 citus group leaderArg force action o cluster0,
     some ("Member " ++ ((foLeader citus action group leaderArg force o
       cluster0).getD "") ++ " is not the leader of cluster " ++ clusterName))
  else if candidateNamesOf (foCluster citus group o cluster0).members
      (foLeader citus action group leaderArg force o cluster0) = [] then
    (foEffs2 citus group leaderArg force action o cluster0,
     some ("No candidates found to " ++ action ++ " to"))
  else if action = "failover" ∧ ¬truthy (foCandidate force candidateArg o) then
    (foEffs3 citus group leaderArg force action o cluster0 candidateArg,
     some "Failover could be performed only to a specific candidate")
  else if foCandidate force candidateArg o =
      foLeader citus action group leaderArg force o cluster0 then
    (foEffs3 citus group leaderArg force action o cluster0 candidateArg,
     some (titleOf action ++ " target and source are the same."))
  else if truthy (foCandidate force candidateArg o) ∧
      (foCandidate force candidateArg o).getD "" ∉
        candidateNamesOf (foCluster citus group o cluster0).members
          (foLeader citus action group leaderArg force o cluster0) then
    (foEffs3 citus group leaderArg force action o cluster0 candidateArg,
     some ("Member " ++ (foCandidate force candidateArg o).getD "" ++
       " does not exist in cluster " ++ clusterName))
  else match foParsed action force scheduled parse o with
    | .error e =>
      (foEffs4 citus group leaderArg force action o cluster0 candidateArg scheduled,
       some e)
    | .ok scheduled_at =>
      if action = "switchover" ∧ scheduled_at ≠ none ∧
          (foCluster citus group o cluster0).paused then
        (foEffs4 citus group leaderArg force action o cluster0 candidateArg
          scheduled, some "Can't schedule switchover in the paused state")
      else if ¬force ∧ ¬o.confirmAnswer then
        (foEffs5 citus group leaderArg force action o cluster0 candidateArg
          scheduled,
         some (if scheduled_at ≠ none then "Aborting scheduled " ++ action
           else "Aborting " ++ action))
      else
        (foEffs5 citus group leaderArg force action o cluster0 candidateArg
           scheduled ++
         dispatchPhase action (foCluster citus group o cluster0)
           (foLeader citus action group leaderArg force o cluster0)
           (foCandidate force candidateArg o) scheduled_at o.api,
         none)

/-- The action the `failover` click command really runs (line 825):
`'switchover' if leader else 'failover'`, using Python truthiness of the
`--leader` value. -/
def failoverCommandAction (leaderArg : Option String) : String :=
  if truthy leaderArg then "switchover" else "failover"

/-- Embedding of the `failover` command (lines 817-826): it delegates to
`_do_failover_or_switchover` with the action chosen by
`failoverCommandAction` and no `--scheduled` option. -/
def failoverCommand (citus : Bool) (clusterName : String) (group : Option Nat)
    (leaderArg candidateArg : Option String) (force : Bool)
    (parse : String → Option String) (o : FOOracle) (cluster0 : Cluster) :
    List Effect × Option String :=
  doFailoverOrSwitchover citus (failoverCommandAction leaderArg) clusterName group
    leaderArg candidateArg force none parse o cluster0

/-- Interactive answers for `get_members` / `restart`.  `shuffle` abstracts
`random.shuffle` (any reordering); a witness may take the identity. -/
structure PromptOracle where
  memberAnswer : String := ""
  confirmAnswer : Bool := true
  scheduledAnswer : String := ""
  versionAnswer : String := ""
  shuffle : List Member → List Member := id

/-- Embedding of `get_members(obj, cluster, cluster_name, member_names, role,
force, action, ask_confirmation, group)` (lines 345-372).  Python's
`set(member_names) & candidates` has unspecified iteration order; we keep
first-occurrence order (`dedup`/`filter`), which agrees on membership, the
only thing later steps depend on. -/
def get_members (citus : Bool) (cluster : Cluster) (clusterName : String)
    (memberNames0 : List String) (role : String) (force : Bool) (action : String)
    (askConfirmation : Bool) (group : Option Nat) (o : PromptOracle) :
    List Effect × Except String (List Member) :=
  let allms := get_all_members citus cluster group role
  let candidates := (allms.map Member.name).dedup
  let guard := ¬force ∨ role ≠ ""
  if guard ∧ memberNames0 = [] ∧ candidates = [] then
    ([], .error (clusterName ++ " cluster doesn't have any members"))
  else
  let effs : List Effect := if guard then [Effect.display] else []
  match (if memberNames0 ≠ [] then
           let mn := memberNames0.dedup.filter (candidates.contains ·)
           if mn = [] then .error ("No " ++ role ++ " among provided members")
           else .ok mn
         else if action ≠ "reinitialize" then .ok candidates
         else .ok [] : Except String (List String)) with
  | .error e => (effs, .error e)
  | .ok mn1 =>
    let mn2 := if mn1 = [] ∧ ¬force then [o.memberAnswer] else mn1
    let effs := effs ++ (if mn1 = [] ∧ ¬force then
      [Effect.prompt ("Which member do you want to " ++ action)] else [])
    match mn2.find? fun n => !candidates.contains n with
    | some bad => (effs, .error (bad ++ " is not a member of cluster"))
    | none =>
      let selected := allms.filter fun m => mn2.contains m.name
      if askConfirmation ∧ ¬force then
        (effs ++ [Effect.confirm action],
         if o.confirmAnswer then .ok selected else .error ("Aborted " ++ action))
      else (effs, .ok selected)

/-- Embedding of `check_response(response, member_name, action_name, silent_success)`
(lines 536-544), as an effect list. -/
def check_response_effects (r : ApiResp) (memberName actionName : String)
    (silent : Bool) : List Effect :=
  if r.status ≥ 400 then
    [Effect.echo ("Failed: " ++ actionName ++ " for member " ++ memberName ++
      ", status code=" ++ toString r.status ++ ", (" ++ r.data ++ ")")]
  else if ¬silent then
    [Effect.echo ("Success: " ++ actionName ++ " for member " ++ memberName)]
  else []

/-- The per-member dispatch body of the `restart` command (lines 644-660):
optionally flush an already scheduled restart (only under `--force` when the
member reports one and a schedule is being set), POST the restart, and report
by status.  `api m method` is the member API's response. -/
def restartDispatchOne (content : RestartBody) (force : Bool)
    (api : String → String → ApiResp) (m : Member) : List Effect :=
  (if content.schedule ≠ none ∧ force ∧ m.scheduled_restart then
    Effect.apiDelete m.name "restart" ::
      check_response_effects (api m.name "delete") m.name "flush scheduled restart" true
   else []) ++
  [Effect.apiPost m.name "restart" (.restart content)] ++
  (let r := api m.name "post"
   if r.status = 200 then
     [Effect.echo ("Success: restart on member " ++ m.name)]
   else if r.status = 202 then
     [Effect.echo ("Success: restart scheduled on member " ++ m.name)]
   else if r.status = 409 then
     [Effect.echo ("Failed: another restart is already scheduled on member " ++ m.name)]
   else
     [Effect.echo ("Failed: restart for member " ++ m.name ++ ", status code=" ++
       toString r.status ++ ", (" ++ r.data ++ ")")])

/-- Embedding of the `restart` command (lines 603-660).  `validVersion`
abstracts `postgres_version_to_int` (raises on malformed versions; the
function lives in `patroni/postgresql/misc.py`, outside the embedded source,
so its error text is modelled). -/
def restartCommand (citus : Bool) (cluster : Cluster) (clusterName : String)
    (group : Option Nat) (memberNames : List String) (force : Bool) (role : String)
    (pAny : Bool) (scheduled version : Option String) (pending : Bool)
    (timeout : Option String) (parse : String → Option String)
    (validVersion : String → Bool) (o : PromptOracle)
    (api : String → String → ApiResp) : List Effect × Option String :=
  match get_members citus cluster clusterName memberNames role force "restart"
      false group o with
  | (effs, .error e) => (effs, some e)
  | (effs, .ok members) =>
    let scheduled' := if scheduled = none ∧ ¬force then some o.scheduledAnswer
      else scheduled
    let effs := effs ++ (if scheduled = none ∧ ¬force then
      [Effect.prompt "When should the restart take place"] else [])
    match parseScheduled parse scheduled' with
    | .error e => (effs, some e)
    | .ok scheduled_at =>
      let effs := effs ++ (if force then [] else [Effect.confirm "restart"])
      if ¬force ∧ ¬o.confirmAnswer then
        (effs, some (if scheduled_at ≠ none then "Aborted scheduled restart"
          else "Aborted restart"))
      else
      let members := if pAny then (o.shuffle members).take 1 else members
      let version' := if version = none ∧ ¬force then some o.versionAnswer else version
      let effs := effs ++ (if version = none ∧ ¬force then
        [Effect.prompt "Restart if the PostgreSQL version is less than provided"]
        else [])
      if truthy version' ∧ ¬validVersion (version'.getD "") then
        (effs, some ("Invalid PostgreSQL version: " ++ version'.getD ""))
      else
      if scheduled_at ≠ none ∧ cluster.paused then
        (effs, some "Can't schedule restart in the paused state")
      else
      let content : RestartBody :=
        { restart_pending := pending,
          postgres_version := if truthy version' then version' else none,
          schedule := scheduled_at,
          timeout := timeout }
      (effs ++ members.flatMap (restartDispatchOne content force api), none)

/-- Check `all(m.data.get('pause', False) == paused for m in cluster.members if
m.name in old)` (line 1038). -/
def pauseCheck (old : List String) (paused : Bool) (c : Cluster) : Bool :=
  c.members.all fun m => !old.contains m.name || (m.pause == paused)

/-- The `remaining` list of `wait_until_pause_is_applied` (lines 1041-1042): members of
the final snapshot that do not report the requested pause flag, were in the
original snapshot's `old` map (members with a truthy `api_url`), and whose DCS
index changed since the original snapshot. -/
def remainingMembers (oldc : Cluster) (paused : Bool) (c : Cluster) : List String :=
  let olds := oldc.members.filter fun m => truthy m.api_url
  let old := olds.map Member.name
  (c.members.filter fun m =>
    m.pause ≠ paused ∧ old.contains m.name ∧
      ((olds.find? fun m0 => m0.name = m.name).map Member.index ≠ some m.index)).map
    Member.name

/-- Embedding of `wait_until_pause_is_applied(dcs, paused, old_cluster)`
(lines 1031-1046).  `polling_loop(loop_wait + 1)` lives in `patroni/utils.py`,
outside the embedded source; modelled from the spec ("polls the DCS bounded by
the cluster's configured loop interval"): `polls` is the list of successive
`dcs.get_cluster()` snapshots the time budget allows, assumed non-empty.  The
loop breaks at the first snapshot on which every tracked member reports the
requested flag; otherwise `remaining` is computed from the last snapshot. -/
def wait_until_pause_is_applied (paused : Bool) (oldc : Cluster)
    (dcsLoopWait : Nat) (polls : List Cluster) : List Effect :=
  let header := Effect.echo ("'" ++ (if paused then "pause" else "resume") ++
    "' request sent, waiting until it is recognized by all nodes")
  let old := (oldc.members.filter fun m => truthy m.api_url).map Member.name
  let loopWait := oldc.loop_wait.getD dcsLoopWait
  let success := Effect.echo ("Success: cluster management is " ++
    (if paused then "paused" else "resumed"))
  match polls.find? (pauseCheck old paused) with
  | some _ => [header, success]
  | none =>
    match polls.getLast? with
    | none => [header]
    | some c =>
      let remaining := remainingMembers oldc paused c
      if remaining ≠ [] then
        [header, Effect.echo (String.intercalate ", " remaining ++
          " members didn't recognized pause state after " ++ toString loopWait ++
          " seconds")]
      else [header, success]

/-- The member iteration of `toggle_pause` (lines 1056-1074): try each member
of `get_all_members_leader_first` in turn; an unreachable member (`api m =
none`, i.e. `request_patroni` raised) is logged and skipped; the first member
that answers breaks the loop — 200 either starts the wait loop or prints
success, any other status is reported; if no member answers, raise. -/
def togglePauseGo (paused waitFlag : Bool) (oldc : Cluster) (dcsLoopWait : Nat)
    (api : String → Option ApiResp) (polls : List Cluster) :
    List Member → List Effect × Option String
  | [] => ([], some "Can not find accessible cluster member")
  | m :: rest =>
    let body : ReqBody := .configPatch (if paused then some true else none)
    let e0 := Effect.apiPost m.name "config" body
    match api m.name with
    | none =>
      let (effs, err) := togglePauseGo paused waitFlag oldc dcsLoopWait api polls rest
      (e0 :: Effect.logWarning ("Member " ++ m.name ++ " is not accessible") :: effs,
       err)
    | some r =>
      if r.status = 200 then
        (e0 :: (if waitFlag then
          wait_until_pause_is_applied paused oldc dcsLoopWait polls
          else [Effect.echo ("Success: cluster management is " ++
            (if paused then "paused" else "resumed"))]), none)
      else
        (e0 :: [Effect.echo ("Failed: " ++ (if paused then "pause" else "resume") ++
          " cluster management status code=" ++ toString r.status ++ ", (" ++
          r.data ++ ")")], none)

/-- Embedding of `toggle_pause(config, cluster_name, group, paused, wait)`
(lines 1049-1074). -/
def toggle_pause (cluster : Cluster) (paused waitFlag : Bool) (dcsLoopWait : Nat)
    (api : String → Option ApiResp) (polls : List Cluster) :
    List Effect × Option String :=
  if cluster.paused = paused then
    ([], some ("Cluster is " ++ (if paused then "already" else "not") ++ " paused"))
  else
    togglePauseGo paused waitFlag cluster dcsLoopWait api polls
      (get_all_members_leader_first cluster)

/-! ### Topology builder (`generate_topology` / `topology_sort`, lines 842-866)

`topology_sort` receives the JSON member dicts of `cluster_as_json`; the
fields it reads are `name`, `role` and `tags.replicatefrom`, embedded as
`TMember`.  The display indentation that `generate_topology` splices into
`member['name']` at levels > 0 is pure formatting of an already-chosen member,
so the embedding yields `(level, member)` pairs with the original name; the
`if member['name']` truthiness test is applied to the mutated name, hence only
effective at level 0. -/

/-- A member row as seen by `topology_sort`. -/
structure TMember where
  name : String
  role : String
  replicatefrom : Option String := none
  deriving Repr, DecidableEq

/-- Model of `s.endswith(p)`, via character lists (kernel-computable). -/
def strEndsWith (s p : String) : Bool := beginsWith p.data.reverse s.data.reverse

/-- Test `member['role'].endswith('leader')`. -/
def isLeaderRole (m : TMember) : Bool := strEndsWith m.role "leader"

/-- The `replicas` set: the names of the non-leader members (line 859). -/
def replicasOf (members : List TMember) : List String :=
  (members.filter fun m => ¬isLeaderRole m).map TMember.name

/-- The key under which the leader's children are stored: the first
leader-role member's name, or `None` for the `{'name': None}` placeholder. -/
def leaderKeyOf (members : List TMember) : Option String :=
  (members.find? isLeaderRole).map TMember.name

/-- The parent key chosen for a non-leader member (line 862-863): its
`replicatefrom` tag when that is truthy, not the member itself, and names a
known replica; otherwise the leader's key. -/
def resolvedParent (members : List TMember) (m : TMember) : Option String :=
  match m.replicatefrom with
  | some p =>
    if p ≠ "" ∧ p ≠ m.name ∧ p ∈ replicasOf members then some p
    else leaderKeyOf members
  | none => leaderKeyOf members

/-- The list `topology[k]`: the non-leader members whose resolved parent is `k`, in
input order (the `defaultdict(list)` append order of lines 860-864). -/
def childrenOf (members : List TMember) (k : Option String) : List TMember :=
  members.filter fun m => ¬isLeaderRole m ∧ resolvedParent members m = k

/-- Embedding of `generate_topology(level, member, topology)` (lines 842-853).  The node is
`none` for the `{'name': None}` placeholder used when no leader exists.
Python's recursion carries no fuel; the embedding makes the recursion
structural on `fuel`, and `topology_sort` supplies `members.length + 1`, which
is enough because the children lists partition the non-leader members by their
unique parent key, so no traversed path can repeat a member. -/
def genTopology (ch : Option String → List TMember) :
    Nat → Nat → Option TMember → List (Nat × TMember)
  | 0, _, _ => []
  | fuel + 1, level, node =>
    let key : Option String := node.map TMember.name
    (match node with
     | none => []
     | some m => if level = 0 ∧ m.name = "" then [] else [(level, m)]) ++
    (ch key).flatMap fun c => genTopology ch fuel (level + 1) (some c)

/-- Embedding of `topology_sort(members)` (lines 856-866). -/
def topology_sort (members : List TMember) : List (Nat × TMember) :=
  genTopology (childrenOf members) (members.length + 1) 0 (members.find? isLeaderRole)

/-! Chain iteration used to reason about the traversal: `stepK` follows one
`resolvedParent` edge upward from a member name, `iterK` iterates it, and
`HitsK a t` says the parent chain starting at key `a` reaches key `t` in at
least one step. -/

/-- One step up the parent chain from a key: look up the (unique, when names
are distinct) non-leader member with that name and take its resolved parent. -/
def stepK (members : List TMember) : Option String → Option (Option String)
  | none => none
  | some n => (members.find? fun m => ¬isLeaderRole m ∧ m.name = n).map
      (resolvedParent members)

/-- Iterated `stepK`. -/
def iterK (members : List TMember) : Nat → Option String → Option (Option String)
  | 0, k => some k
  | j + 1, k =>
    match stepK members k with
    | none => none
    | some k' => iterK members j k'

/-- The parent chain from `a` reaches `t` after at least one step. -/
def HitsK (members : List TMember) (a t : Option String) : Prop :=
  ∃ j : Nat, 0 < j ∧ iterK members j a = some t

/-! ### Claims -/

/-- C1, counterexample: the role resolver with role `any` is claimed to return
exactly the members with a non-empty `api_url`; but a cluster whose only
member has no `api_url` still gets that member back — `get_all_members` never
consults `api_url`. -/
theorem role_any_includes_member_without_api_url :
    get_all_members false { members := [{ name := "a" }] } none "any" =
      [{ name := "a" }] ∧ ({ name := "a" } : Member).api_url = none := by
  constructor <;> rfl

/-- C1 (amended): the role resolver with role `any` returns every member of
the cluster (and, for Citus with no explicit group, the union over the primary
cluster and all worker groups) regardless of `api_url`; its size equals, and
hence never exceeds, the total number of members. -/
theorem role_any_returns_all_members (citus : Bool) (c : Cluster) (group : Option Nat) :
    get_all_members citus c group "any" = unionMembers citus c group ∧
    (get_all_members citus c group "any").length ≤ (unionMembers citus c group).length := by
  have h : get_all_members citus c group "any" = unionMembers citus c group := by
    simp [get_all_members, unionMembers]
  exact ⟨h, le_of_eq (by rw [h])⟩

/-- C10, counterexample: the `failover` command with a supplied but empty
`--leader` value still dispatches a `failover`, not a `switchover`, because
the command tests Python truthiness (`'switchover' if leader else
'failover'`), not presence. -/
theorem failover_with_empty_leader_stays_failover :
    failoverCommandAction (some "") = "failover" ∧
      failoverCommandAction (some "") ≠ "switchover" := by
  constructor <;> decide

/-- C10 (amended): whenever the `failover` command is invoked with a
*non-empty* `--leader` argument, the dispatched action is `switchover`, and
the switchover preconditions apply: a cluster without a named leader is
rejected with "This cluster has no leader", a leader argument that does not
match the acting leader is rejected, and scheduling while the cluster is
paused is rejected. -/
theorem failover_with_leader_runs_switchover (citus : Bool) (clusterName : String)
    (group : Option Nat) (s : String) (candidateArg : Option String) (force : Bool)
    (parse : String → Option String) (o : FOOracle) (c : Cluster) (hs : s ≠ "") :
    (failoverCommand citus clusterName group (some s) candidateArg force parse o c =
      doFailoverOrSwitchover citus "switchover" clusterName group (some s)
        candidateArg force none parse o c) ∧
    (citus = false → noLeader c = true →
      (failoverCommand citus clusterName group (some s) candidateArg force parse o c).2
        = some "This cluster has no leader") ∧
    (citus = false → ∀ L, c.leader = some L → L.name ≠ "" → L.name ≠ s →
      (failoverCommand citus clusterName group (some s) candidateArg force parse o c).2
        = some ("Member " ++ s ++ " is not the leader of cluster " ++ clusterName)) ∧
    (citus = false → force = false → ∀ L cand t ts, c.leader = some L → L.name = s →
      candidateArg = some cand → cand ≠ "" → cand ≠ s →
      cand ∈ candidateNamesOf c.members (some s) →
      o.scheduledAnswer = t → t ≠ "" → t ≠ "now" → parse t = some ts →
      c.paused = true →
      (failoverCommand citus clusterName group (some s) candidateArg force parse o c).2
        = some "Can't schedule switchover in the paused state") := by
  refine ⟨?_, ?_, ?_, ?_⟩
  · simp [failoverCommand, failoverCommandAction, truthy, hs]
  · intro hc hnl
    subst hc
    simp [failoverCommand, failoverCommandAction, truthy, hs,
      doFailoverOrSwitchover, foCluster, hnl]
  · intro hc L hL hLn hne
    subst hc
    have hmm : leaderMismatch c (some s) = true := by
      simp [leaderMismatch, hL, hne]
    have hnl : noLeader c = false := by
      simp [noLeader, hL, hLn]
    simp [failoverCommand, failoverCommandAction, truthy, hs,
      doFailoverOrSwitchover, foCluster, foLeader, resolveLeader, hnl, hmm]
  · intro hc hf L cand t ts hL hLs hcand hcne hcs hmem hans ht1 ht2 hp hpause
    subst hc hf hcand hans
    have hnl : noLeader c = false := by
      simp only [noLeader, hL]
      simp only [hLs]
      simp [hs]
    have hmm : leaderMismatch c (some s) = false := by
      simp [leaderMismatch, hL, hLs]
    have hcn : candidateNamesOf c.members (some s) ≠ [] :=
      fun h => by simp [h] at hmem
    simp [failoverCommand, failoverCommandAction, truthy, hs,
      doFailoverOrSwitchover, foCluster, foLeader, foCandidate, foParsed,
      resolveLeader, hnl, hmm, hcn, hcne, hcs, hmem,
      parseScheduled, ht1, ht2, hp, hpause]

/-- C10, witness. -/
theorem failover_with_leader_runs_switchover_witness :
    noLeader ({} : Cluster) = true ∧
    (failoverCommand false "cl" none (some "A") none false (fun _ => none) {} {}).2 =
      some "This cluster has no leader" :=
  ⟨rfl, (failover_with_leader_runs_switchover false "cl" none "A" none false
    (fun _ => none) {} {} (by decide)).2.1 rfl rfl⟩

/-- C4: when the POST of a failover/switchover to the chosen member raises a
transport error, the orchestrator logs the "Failing over to DCS" warning and
then writes `manual_failover(leader, candidate, scheduled_at)` to the DCS with
exactly the leader, candidate and scheduled time the request body carried
(`None` when immediate). -/
theorem transport_error_falls_back_to_manual_failover (action : String)
    (c : Cluster) (leader candidate scheduled_at : Option String)
    (api : Nat → ApiOutcome) (m : Member) (hm : c.leader = some m)
    (hr : api 0 = .raise) :
    dispatchPhase action c leader candidate scheduled_at api =
      [Effect.apiPost m.name action (.failover ⟨leader, candidate, scheduled_at⟩),
       Effect.logWarning "Failing over to DCS",
       Effect.echo ("Could not " ++ action ++ " using Patroni api, falling back to DCS"),
       Effect.manualFailover leader candidate scheduled_at,
       Effect.display] := by
  simp [dispatchPhase, hm, hr]

/-- C4, witness. -/
theorem transport_error_falls_back_to_manual_failover_witness :
    dispatchPhase "failover" { leader := some { name := "A" } } (some "A") (some "B")
        none (fun _ => .raise) =
      [Effect.apiPost "A" "failover" (.failover ⟨some "A", some "B", none⟩),
       Effect.logWarning "Failing over to DCS",
       Effect.echo "Could not failover using Patroni api, falling back to DCS",
       Effect.manualFailover (some "A") (some "B") none,
       Effect.display] :=
  transport_error_falls_back_to_manual_failover "failover" _ _ _ _ _ _ rfl rfl

/-- C8, counterexample: a 501 switchover response whose body does not contain
"Server does not support this operation" is *not* retried as a legacy
failover; it is surfaced as a failure immediately. -/
theorem switchover_501_without_marker_not_retried :
    dispatchPhase "switchover" { leader := some { name := "m1" } } (some "m1")
        (some "m2") none (fun _ => .ok 501 "nope") =
      [Effect.apiPost "m1" "switchover" (.failover ⟨some "m1", some "m2", none⟩),
       Effect.echo "Switchover failed, details: 501, nope"] ∧
    Effect.apiPost "m1" "failover" (.failover ⟨some "m1", some "m2", none⟩) ∉
      dispatchPhase "switchover" { leader := some { name := "m1" } } (some "m1")
        (some "m2") none (fun _ => .ok 501 "nope") := by
  constructor <;> decide

/-- C8 (amended): during a switchover, a 501 response whose body contains
"Server does not support this operation" is retried as a legacy `failover`
POST to the same member with the same body, and the 501 is not surfaced as a
failure: a 200/202 retry ends in the success path, and only a failing retry
produces the failure report. -/
theorem switchover_501_unsupported_retried_as_failover (c : Cluster) (m : Member)
    (leader candidate scheduled_at : Option String) (api : Nat → ApiOutcome)
    (d : String) (hm : c.leader = some m) (h0 : api 0 = .ok 501 d)
    (hmark : containsText d "Server does not support this operation" = true) :
    (∃ rest, dispatchPhase "switchover" c leader candidate scheduled_at api =
      Effect.apiPost m.name "switchover" (.failover ⟨leader, candidate, scheduled_at⟩) ::
      Effect.apiPost m.name "failover" (.failover ⟨leader, candidate, scheduled_at⟩) ::
      rest) ∧
    (∀ st2 d2, api 1 = .ok st2 d2 → (st2 = 200 ∨ st2 = 202) →
      dispatchPhase "switchover" c leader candidate scheduled_at api =
        [Effect.apiPost m.name "switchover" (.failover ⟨leader, candidate, scheduled_at⟩),
         Effect.apiPost m.name "failover" (.failover ⟨leader, candidate, scheduled_at⟩),
         Effect.dcsRead, Effect.echo d2, Effect.display]) ∧
    (∀ st2 d2, api 1 = .ok st2 d2 → ¬(st2 = 200 ∨ st2 = 202) →
      dispatchPhase "switchover" c leader candidate scheduled_at api =
        [Effect.apiPost m.name "switchover" (.failover ⟨leader, candidate, scheduled_at⟩),
         Effect.apiPost m.name "failover" (.failover ⟨leader, candidate, scheduled_at⟩),
         Effect.echo ("Switchover failed, details: " ++ toString st2 ++ ", " ++ d2)]) := by
  refine ⟨?_, ?_, ?_⟩
  · simp only [dispatchPhase, hm, h0]
    rw [if_pos (⟨trivial, trivial, hmark⟩ : True ∧ True ∧
      containsText d "Server does not support this operation" = true)]
    cases hapi : api 1 with
    | raise => exact ⟨_, rfl⟩
    | ok st2 d2 =>
      dsimp only
      by_cases hok : st2 = 200 ∨ st2 = 202
      · rw [if_pos hok]; exact ⟨_, rfl⟩
      · rw [if_neg hok]; exact ⟨_, rfl⟩
  · intro st2 d2 h1 hok
    simp only [dispatchPhase, hm, h0]
    rw [if_pos (⟨trivial, trivial, hmark⟩ : True ∧ True ∧
      containsText d "Server does not support this operation" = true), h1]
    dsimp only
    rw [if_pos hok]
  · intro st2 d2 h1 hok
    simp only [dispatchPhase, hm, h0]
    rw [if_pos (⟨trivial, trivial, hmark⟩ : True ∧ True ∧
      containsText d "Server does not support this operation" = true), h1]
    dsimp only
    rw [if_neg hok]
    simp [titleOf]

/-- C8, witness. -/
theorem switchover_501_unsupported_retried_as_failover_witness :
    (∃ rest, dispatchPhase "switchover" { leader := some { name := "m1" } }
        (some "m1") (some "m2") none
        (fun n => if n = 0 then .ok 501 "Server does not support this operation"
          else .ok 200 "Successfully switched over") =
      Effect.apiPost "m1" "switchover" (.failover ⟨some "m1", some "m2", none⟩) ::
      Effect.apiPost "m1" "failover" (.failover ⟨some "m1", some "m2", none⟩) ::
      rest) :=
  (switchover_501_unsupported_retried_as_failover
    { leader := some { name := "m1" } } { name := "m1" } (some "m1") (some "m2") none
    (fun n => if n = 0 then .ok 501 "Server does not support this operation"
      else .ok 200 "Successfully switched over")
    "Server does not support this operation" rfl rfl (by decide)).1

@[simp] theorem noMutation_nil : noMutation [] = true := rfl

@[simp] theorem noMutation_cons (e : Effect) (l : List Effect) :
    noMutation (e :: l) = (!e.isMutation && noMutation l) := rfl

@[simp] theorem noMutation_append (l1 l2 : List Effect) :
    noMutation (l1 ++ l2) = (noMutation l1 && noMutation l2) := by
  simp [noMutation, List.all_append]

theorem noMutation_foEffs1 (citus : Bool) (group : Option Nat) :
    noMutation (foEffs1 citus group) = true := by
  unfold foEffs1; split <;> rfl

theorem noMutation_foEffs2 (citus : Bool) (group : Option Nat)
    (leaderArg : Option String) (force : Bool) (action : String) (o : FOOracle)
    (cluster0 : Cluster) :
    noMutation (foEffs2 citus group leaderArg force action o cluster0) = true := by
  simp only [foEffs2, noMutation_append, noMutation_foEffs1, Bool.true_and]
  split <;> rfl

theorem noMutation_foEffs3 (citus : Bool) (group : Option Nat)
    (leaderArg : Option String) (force : Bool) (action : String) (o : FOOracle)
    (cluster0 : Cluster) (candidateArg : Option String) :
    noMutation (foEffs3 citus group leaderArg force action o cluster0
      candidateArg) = true := by
  simp only [foEffs3, noMutation_append, noMutation_foEffs2, Bool.true_and]
  split <;> rfl

theorem noMutation_foEffs4 (citus : Bool) (group : Option Nat)
    (leaderArg : Option String) (force : Bool) (action : String) (o : FOOracle)
    (cluster0 : Cluster) (candidateArg scheduled : Option String) :
    noMutation (foEffs4 citus group leaderArg force action o cluster0
      candidateArg scheduled) = true := by
  simp only [foEffs4, noMutation_append, noMutation_foEffs3, Bool.true_and]
  split <;> rfl

theorem noMutation_foEffs5 (citus : Bool) (group : Option Nat)
    (leaderArg : Option String) (force : Bool) (action : String) (o : FOOracle)
    (cluster0 : Cluster) (candidateArg scheduled : Option String) :
    noMutation (foEffs5 citus group leaderArg force action o cluster0
      candidateArg scheduled) = true := by
  simp only [foEffs5, noMutation_append, noMutation_foEffs4, Bool.true_and]
  split <;> rfl

/-- The function `get_members` only displays, prompts and confirms: its trace never
contains a mutating network call. -/
theorem get_members_no_mutation (citus : Bool) (cluster : Cluster)
    (clusterName : String) (memberNames0 : List String) (role : String)
    (force : Bool) (action : String) (ask : Bool) (group : Option Nat)
    (o : PromptOracle) :
    noMutation (get_members citus cluster clusterName memberNames0 role force
      action ask group o).1 = true := by
  simp only [get_members]
  repeat' split
  all_goals simp [noMutation, Effect.isMutation]

set_option maxHeartbeats 1600000 in
/-- Every `PatroniCtlException` raised by `_do_failover_or_switchover` happens
before the dispatch phase: an errored run performed no mutating network call. -/
theorem doF_error_no_mutation (citus : Bool) (action clusterName : String)
    (group : Option Nat) (leaderArg candidateArg : Option String) (force : Bool)
    (scheduled : Option String) (parse : String → Option String) (o : FOOracle)
    (cluster0 : Cluster) :
    (doFailoverOrSwitchover citus action clusterName group leaderArg candidateArg
      force scheduled parse o cluster0).2.isSome = true →
    noMutation (doFailoverOrSwitchover citus action clusterName group leaderArg
      candidateArg force scheduled parse o cluster0).1 = true := by
  simp only [doFailoverOrSwitchover]
  repeat' split
  all_goals intro h
  all_goals first
    | exact noMutation_foEffs1 _ _
    | exact noMutation_foEffs2 _ _ _ _ _ _ _
    | exact noMutation_foEffs3 _ _ _ _ _ _ _ _
    | exact noMutation_foEffs4 _ _ _ _ _ _ _ _ _
    | exact noMutation_foEffs5 _ _ _ _ _ _ _ _ _
    | rfl
    | simp at h

set_option maxHeartbeats 1600000 in
/-- Every `PatroniCtlException` raised by the `restart` command happens before
its dispatch loop: an errored run performed no mutating network call. -/
theorem restart_error_no_mutation (citus : Bool) (cluster : Cluster)
    (clusterName : String) (group : Option Nat) (memberNames : List String)
    (force : Bool) (role : String) (pAny : Bool) (scheduled version : Option String)
    (pending : Bool) (timeout : Option String) (parse : String → Option String)
    (validVersion : String → Bool) (o : PromptOracle)
    (api : String → String → ApiResp) :
    (restartCommand citus cluster clusterName group memberNames force role pAny
      scheduled version pending timeout parse validVersion o api).2.isSome = true →
    noMutation (restartCommand citus cluster clusterName group memberNames force
      role pAny scheduled version pending timeout parse validVersion o api).1
      = true := by
  simp only [restartCommand]
  split
  next effs e heq =>
    intro _
    have h := get_members_no_mutation citus cluster clusterName memberNames role
      force "restart" false group o
    rw [heq] at h
    simpa using h
  next effs members heq =>
    have h := get_members_no_mutation citus cluster clusterName memberNames role
      force "restart" false group o
    rw [heq] at h
    simp only at h
    repeat' split
    all_goals intro hh
    all_goals simp_all [noMutation, Effect.isMutation]

/-- C2: failover/switchover candidate resolution returns exactly the members
other than the acting leader not tagged `nofailover`, sorted lexicographically
by name; and when this set is empty the action is rejected with a "No
candidates found" error with no mutating network call performed. -/
theorem candidate_selection_correct (members : List Member) (leader : Option String) :
    (∀ x, x ∈ candidateNamesOf members leader ↔
      ∃ m ∈ members, m.name = x ∧ some m.name ≠ leader ∧ m.nofailover = false) ∧
    (candidateNamesOf members leader).Sorted (· ≤ ·) ∧
    (∀ (action clusterName : String) (group : Option Nat)
        (leaderArg candidateArg : Option String) (force : Bool)
        (scheduled : Option String) (parse : String → Option String)
        (o : FOOracle) (c : Cluster),
      ¬(action = "switchover" ∧ noLeader c = true) →
      leaderMismatch c (resolveLeader action force leaderArg c o.leaderAnswer) = false →
      candidateNamesOf c.members
        (resolveLeader action force leaderArg c o.leaderAnswer) = [] →
      (doFailoverOrSwitchover false action clusterName group leaderArg candidateArg
        force scheduled parse o c).2 = some ("No candidates found to " ++ action
          ++ " to") ∧
      noMutation (doFailoverOrSwitchover false action clusterName group leaderArg
        candidateArg force scheduled parse o c).1 = true) := by
  refine ⟨?_, ?_, ?_⟩
  · intro x
    simp only [candidateNamesOf]
    constructor
    · intro hx
      rw [List.mem_insertionSort] at hx
      rcases List.mem_map.1 hx with ⟨m, hm, rfl⟩
      rcases List.mem_filter.1 hm with ⟨hmem, hp⟩
      simp only [decide_eq_true_eq] at hp
      exact ⟨m, hmem, rfl, hp.1, hp.2⟩
    · rintro ⟨m, hmem, rfl, h1, h2⟩
      rw [List.mem_insertionSort]
      exact List.mem_map.2 ⟨m, List.mem_filter.2 ⟨hmem, by simp [h1, h2]⟩, rfl⟩
  · exact List.sorted_insertionSort _ _
  · intro action clusterName group leaderArg candidateArg force scheduled parse o c
      h1 hmm hempty
    constructor
    · simp only [doFailoverOrSwitchover, foCluster, foLeader]
      simp [h1, hmm, hempty]
    · exact doF_error_no_mutation false action clusterName group leaderArg
        candidateArg force scheduled parse o c (by
          simp only [doFailoverOrSwitchover, foCluster, foLeader]
          simp [h1, hmm, hempty])

/-- C2, witness: a cluster whose only non-leader member is tagged
`nofailover` has an empty candidate set, and a forced switchover is rejected
with "No candidates found to switchover to" without any mutating call. -/
theorem candidate_selection_correct_witness :
    candidateNamesOf [{ name := "a" }, { name := "b", nofailover := true }]
      (some "a") = [] ∧
    (doFailoverOrSwitchover false "switchover" "cl" none none none true none
      (fun _ => none) {}
      { leader := some { name := "a" },
        members := [{ name := "a" }, { name := "b", nofailover := true }] }).2 =
      some "No candidates found to switchover to" ∧
    noMutation (doFailoverOrSwitchover false "switchover" "cl" none none none true
      none (fun _ => none) {}
      { leader := some { name := "a" },
        members := [{ name := "a" }, { name := "b", nofailover := true }] }).1
      = true := by
  refine ⟨by decide, ?_, ?_⟩
  · exact ((candidate_selection_correct [] none).2.2 "switchover" "cl" none none
      none true none (fun _ => none) {} _ (by decide) (by decide) (by decide)).1
  · exact ((candidate_selection_correct [] none).2.2 "switchover" "cl" none none
      none true none (fun _ => none) {} _ (by decide) (by decide) (by decide)).2

/-- C5: every validation failure of failover/switchover or restart (unknown
member or candidate, candidate equal to leader, empty candidate set, malformed
schedule, scheduling while paused, refused confirmation, ...) raises a
`PatroniCtlException` before any member-API request or DCS write is issued:
when the run errors, its trace contains no mutating call. -/
theorem validation_failure_aborts_before_mutation (citus : Bool)
    (action clusterName : String) (group : Option Nat)
    (leaderArg candidateArg : Option String) (force : Bool)
    (scheduled : Option String) (parse : String → Option String) (o : FOOracle)
    (cluster0 cluster : Cluster) (memberNames : List String) (rforce : Bool)
    (role : String) (pAny : Bool) (rscheduled rversion : Option String)
    (pending : Bool) (timeout : Option String) (validVersion : String → Bool)
    (po : PromptOracle) (api : String → String → ApiResp) :
    ((doFailoverOrSwitchover citus action clusterName group leaderArg candidateArg
        force scheduled parse o cluster0).2.isSome = true →
      noMutation (doFailoverOrSwitchover citus action clusterName group leaderArg
        candidateArg force scheduled parse o cluster0).1 = true) ∧
    ((restartCommand citus cluster clusterName group memberNames rforce role pAny
        rscheduled rversion pending timeout parse validVersion po api).2.isSome
          = true →
      noMutation (restartCommand citus cluster clusterName group memberNames
        rforce role pAny rscheduled rversion pending timeout parse validVersion
        po api).1 = true) :=
  ⟨doF_error_no_mutation citus action clusterName group leaderArg candidateArg
      force scheduled parse o cluster0,
   restart_error_no_mutation citus cluster clusterName group memberNames rforce
      role pAny rscheduled rversion pending timeout parse validVersion po api⟩

/-- C5, witness: a switchover on a leaderless cluster errors with no mutation
in its trace, and a restart of a memberless cluster errors likewise. -/
theorem validation_failure_aborts_before_mutation_witness :
    (doFailoverOrSwitchover false "switchover" "cl" none none none true none
      (fun _ => none) {} {}).2.isSome = true ∧
    noMutation (doFailoverOrSwitchover false "switchover" "cl" none none none
      true none (fun _ => none) {} {}).1 = true ∧
    (restartCommand false {} "cl" none [] true "any" false none none false none
      (fun _ => none) (fun _ => true) {} (fun _ _ => ⟨200, ""⟩)).2.isSome = true ∧
    noMutation (restartCommand false {} "cl" none [] true "any" false none none
      false none (fun _ => none) (fun _ => true) {}
      (fun _ _ => ⟨200, ""⟩)).1 = true := by
  refine ⟨by decide, ?_, by decide, ?_⟩
  · exact (validation_failure_aborts_before_mutation false "switchover" "cl" none
      none none true none (fun _ => none) {} {} {} [] true "any" false none none
      false none (fun _ => true) {} (fun _ _ => ⟨200, ""⟩)).1 (by decide)
  · exact (validation_failure_aborts_before_mutation false "switchover" "cl" none
      none none true none (fun _ => none) {} {} {} [] true "any" false none none
      false none (fun _ => true) {} (fun _ _ => ⟨200, ""⟩)).2 (by decide)

/-- C9, counterexample: `reinit --force` with no explicit member names selects
*no* members at all, although the cluster has a role-eligible replica — for
the reinitialize action the default is the empty set, not "all eligible
candidates". -/
theorem reinitialize_force_selects_nothing :
    (get_members false
      { leader := some { name := "a", api_url := some "u" },
        members := [{ name := "a", api_url := some "u" },
                    { name := "b", api_url := some "u" }] }
      "cl" [] "replica" true "reinitialize" true none {}).2 = .ok [] ∧
    get_all_members false
      { leader := some { name := "a", api_url := some "u" },
        members := [{ name := "a", api_url := some "u" },
                    { name := "b", api_url := some "u" }] }
      none "replica" = [{ name := "b", api_url := some "u" }] := by
  constructor <;> decide

/-- C9 (amended): with the force flag set and no explicit member names,
`get_members` prompts for nothing (its trace is just the table display) and
selects all role-eligible members — except for the reinitialize action, whose
default selection is empty. -/
theorem force_defaults_select_all_eligible (citus : Bool) (cluster : Cluster)
    (clusterName : String) (role action : String) (ask : Bool)
    (group : Option Nat) (o : PromptOracle) (hrole : role ≠ "")
    (hact : action ≠ "reinitialize")
    (hne : get_all_members citus cluster group role ≠ []) :
    get_members citus cluster clusterName [] role true action ask group o =
      ([Effect.display], .ok (get_all_members citus cluster group role)) ∧
    get_members citus cluster clusterName [] role true "reinitialize" ask group o =
      ([Effect.display], .ok []) := by
  have hcand : ((get_all_members citus cluster group role).map Member.name).dedup
      ≠ [] := by
    simp [List.dedup_eq_nil, hne]
  have hfind : (((get_all_members citus cluster group role).map
      Member.name).dedup).find? (fun n => !(((get_all_members citus cluster
        group role).map Member.name).dedup.contains n)) = none := by
    rw [List.find?_eq_none]
    intro x hx
    rcases List.mem_map.1 (List.mem_dedup.1 hx) with ⟨m, hm, hname⟩
    simp
    exact ⟨m, hm, hname⟩
  have hsel : (get_all_members citus cluster group role).filter
      (fun m => ((get_all_members citus cluster group role).map
        Member.name).dedup.contains m.name) =
      get_all_members citus cluster group role := by
    rw [List.filter_eq_self]
    intro m hm
    exact List.elem_eq_true_of_mem (List.mem_dedup.2 (List.mem_map_of_mem _ hm))
  constructor
  · simp only [get_members]
    rw [if_neg (by simp [hcand])]
    rw [if_neg (fun h => h rfl), if_pos hact]
    dsimp only
    rw [if_neg (fun h => h.2 trivial)]
    rw [hfind]
    dsimp only
    rw [hsel]
    rw [if_neg (fun h => h.2 trivial)]
    simp [hrole]
  · simp only [get_members]
    rw [if_neg (by simp [hcand])]
    rw [if_neg (fun h => h rfl), if_neg (fun h => h rfl)]
    dsimp only
    rw [if_neg (fun h => h.2 trivial)]
    simp [hrole]

/-- C9, witness. -/
theorem force_defaults_select_all_eligible_witness :
    ("replica" : String) ≠ "" ∧ ("restart" : String) ≠ "reinitialize" ∧
    get_all_members false
      { leader := some { name := "a", api_url := some "u" },
        members := [{ name := "a", api_url := some "u" },
                    { name := "b", api_url := some "u" }] } none "replica" ≠ [] ∧
    get_members false
      { leader := some { name := "a", api_url := some "u" },
        members := [{ name := "a", api_url := some "u" },
                    { name := "b", api_url := some "u" }] }
      "cl" [] "replica" true "restart" true none {} =
      ([Effect.display], .ok (get_all_members false
        { leader := some { name := "a", api_url := some "u" },
          members := [{ name := "a", api_url := some "u" },
                      { name := "b", api_url := some "u" }] } none "replica")) :=
  ⟨by decide, by decide, by decide,
   (force_defaults_select_all_eligible false
    { leader := some { name := "a", api_url := some "u" },
      members := [{ name := "a", api_url := some "u" },
                  { name := "b", api_url := some "u" }] }
    "cl" "replica" "restart" true none {} (by decide) (by decide) (by decide)).1⟩

/-- C6, counterexample: a restart dispatched without force that returns 409 is
only reported as failed; the run contains no cancel prompt and no
`DELETE /restart` — contrary to the claimed cancel-and-retry dialogue. -/
theorem restart_409_no_cancel_dialogue :
    restartCommand false
      { leader := some { name := "a", api_url := some "u" },
        members := [{ name := "a", api_url := some "u" },
                    { name := "b", api_url := some "u" }] }
      "cl" none ["b"] false "any" false (some "now") (some "") false none
      (fun _ => none) (fun _ => true) {} (fun _ _ => ⟨409, "conflict"⟩) =
      ([Effect.display, Effect.confirm "restart",
        Effect.apiPost "b" "restart" (.restart {}),
        Effect.echo "Failed: another restart is already scheduled on member b"],
       none) ∧
    (restartCommand false
      { leader := some { name := "a", api_url := some "u" },
        members := [{ name := "a", api_url := some "u" },
                    { name := "b", api_url := some "u" }] }
      "cl" none ["b"] false "any" false (some "now") (some "") false none
      (fun _ => none) (fun _ => true) {} (fun _ _ => ⟨409, "conflict"⟩)).1.all
      (fun e => match e with
        | .apiDelete _ _ => false
        | _ => true) = true := by
  constructor <;> decide

/-- C6 (amended): when `POST /restart` answers 409, the command prints
"Failed: another restart is already scheduled on member M" and moves on; the
member dispatch never emits a confirmation, and without force it never sends
a `DELETE /restart` (the only delete is sent *before* the POST, under force,
when the member already reported a scheduled restart). -/
theorem restart_409_reports_conflict (content : RestartBody) (force : Bool)
    (api : String → String → ApiResp) (m : Member)
    (h409 : (api m.name "post").status = 409) :
    (force = false → restartDispatchOne content force api m =
      [Effect.apiPost m.name "restart" (.restart content),
       Effect.echo ("Failed: another restart is already scheduled on member " ++
         m.name)]) ∧
    (restartDispatchOne content force api m).all
      (fun e => match e with
        | .confirm _ => false
        | .prompt _ => false
        | _ => true) = true ∧
    (force = false → (restartDispatchOne content force api m).all
      (fun e => match e with
        | .apiDelete _ _ => false
        | _ => true) = true) := by
  refine ⟨?_, ?_, ?_⟩
  · intro hf
    subst hf
    simp [restartDispatchOne, h409]
  · simp only [restartDispatchOne, check_response_effects]
    repeat' split
    all_goals rfl
  · intro hf
    subst hf
    simp only [restartDispatchOne, check_response_effects]
    repeat' split
    all_goals first | rfl | simp_all

/-- C6, witness. -/
theorem restart_409_reports_conflict_witness :
    restartDispatchOne {} false (fun _ _ => ⟨409, "conflict"⟩) { name := "b" } =
      [Effect.apiPost "b" "restart" (.restart {}),
       Effect.echo "Failed: another restart is already scheduled on member b"] :=
  (restart_409_reports_conflict {} false (fun _ _ => ⟨409, "conflict"⟩)
    { name := "b" } rfl).1 rfl

/-- With distinct names, `find?` by name returns the member itself. -/
theorem find?_name_unique {l : List Member} (hnd : (l.map Member.name).Nodup)
    {m0 : Member} (hm0 : m0 ∈ l) :
    l.find? (fun m => m.name = m0.name) = some m0 := by
  induction l with
  | nil => cases hm0
  | cons h t ih =>
    rw [List.map_cons, List.nodup_cons] at hnd
    rcases List.mem_cons.1 hm0 with rfl | hmem
    · rw [List.find?_cons_of_pos _ (by simp)]
    · have hne : h.name ≠ m0.name := fun he =>
        hnd.1 (he ▸ List.mem_map_of_mem Member.name hmem)
      rw [List.find?_cons_of_neg _ (by simp [hne])]
      exact ih hnd.2 hmem

/-- Membership in the `remaining` list of the pause wait loop, assuming the
distinct-names cluster invariant: `x` is reported iff the final snapshot has a
member named `x` whose pause flag mismatches, the original snapshot had a
member named `x` with a truthy `api_url`, and that member's index changed. -/
theorem remaining_iff (oldc : Cluster) (paused : Bool) (c : Cluster)
    (hnd : ((oldc.members.filter fun m => truthy m.api_url).map Member.name).Nodup)
    (x : String) :
    x ∈ remainingMembers oldc paused c ↔
      ∃ m ∈ c.members, m.name = x ∧ m.pause ≠ paused ∧
        ∃ m0 ∈ oldc.members, truthy m0.api_url = true ∧ m0.name = x ∧
          m0.index ≠ m.index := by
  simp only [remainingMembers]
  constructor
  · intro hx
    rcases List.mem_map.1 hx with ⟨m, hm, rfl⟩
    rcases List.mem_filter.1 hm with ⟨hmem, hp⟩
    simp only [decide_eq_true_eq] at hp
    obtain ⟨hpause, hcont, hidx⟩ := hp
    have hmemname : m.name ∈ (oldc.members.filter fun mm =>
        truthy mm.api_url).map Member.name := by
      simpa [List.elem_iff] using hcont
    rcases List.mem_map.1 hmemname with ⟨m0, hm0, hm0name⟩
    have hfind : (oldc.members.filter fun mm => truthy mm.api_url).find?
        (fun mm => mm.name = m.name) = some m0 := by
      have := find?_name_unique hnd hm0
      rwa [hm0name] at this
    rw [hfind] at hidx
    rcases List.mem_filter.1 hm0 with ⟨hm0mem, hm0url⟩
    refine ⟨m, hmem, rfl, hpause, m0, hm0mem, by simpa using hm0url, hm0name, ?_⟩
    intro he
    exact hidx (by simp [he])
  · rintro ⟨m, hmem, rfl, hpause, m0, hm0mem, hm0url, hm0name, hm0idx⟩
    have hm0f : m0 ∈ oldc.members.filter fun mm => truthy mm.api_url :=
      List.mem_filter.2 ⟨hm0mem, by simpa using hm0url⟩
    have hfind : (oldc.members.filter fun mm => truthy mm.api_url).find?
        (fun mm => mm.name = m.name) = some m0 := by
      have := find?_name_unique hnd hm0f
      rwa [hm0name] at this
    refine List.mem_map.2 ⟨m, List.mem_filter.2 ⟨hmem, ?_⟩, rfl⟩
    simp only [decide_eq_true_eq]
    refine ⟨hpause, ?_, ?_⟩
    · exact List.elem_eq_true_of_mem
        (hm0name ▸ List.mem_map_of_mem Member.name hm0f)
    · rw [hfind]
      simpa using hm0idx

/-- C7 (amended): after a pause/resume patch with `--wait`, the loop polls
until a snapshot satisfies the pause check over the *api_url-bearing* members
of the original snapshot; on success it prints the success line.  When the
budget elapses, the members named are exactly those of the last snapshot whose
pause flag still mismatches, that were in the original snapshot with a truthy
`api_url`, *and whose DCS index changed*; if that list is empty the command
prints the success line even though some member never converged, and when it
is non-empty only the advisory line (no success line) is printed. -/
theorem pause_wait_names_only_index_changed (paused : Bool) (oldc : Cluster)
    (lw : Nat) (polls : List Cluster)
    (hnd : ((oldc.members.filter fun m => truthy m.api_url).map Member.name).Nodup) :
    (∀ c x, x ∈ remainingMembers oldc paused c ↔
      ∃ m ∈ c.members, m.name = x ∧ m.pause ≠ paused ∧
        ∃ m0 ∈ oldc.members, truthy m0.api_url = true ∧ m0.name = x ∧
          m0.index ≠ m.index) ∧
    (∀ c, polls.find? (pauseCheck ((oldc.members.filter fun m =>
        truthy m.api_url).map Member.name) paused) = some c →
      wait_until_pause_is_applied paused oldc lw polls =
        [Effect.echo ("'" ++ (if paused then "pause" else "resume") ++
          "' request sent, waiting until it is recognized by all nodes"),
         Effect.echo ("Success: cluster management is " ++
          (if paused then "paused" else "resumed"))]) ∧
    (polls.find? (pauseCheck ((oldc.members.filter fun m =>
        truthy m.api_url).map Member.name) paused) = none →
      ∀ c, polls.getLast? = some c →
      (remainingMembers oldc paused c = [] →
        wait_until_pause_is_applied paused oldc lw polls =
          [Effect.echo ("'" ++ (if paused then "pause" else "resume") ++
            "' request sent, waiting until it is recognized by all nodes"),
           Effect.echo ("Success: cluster management is " ++
            (if paused then "paused" else "resumed"))]) ∧
      (remainingMembers oldc paused c ≠ [] →
        wait_until_pause_is_applied paused oldc lw polls =
          [Effect.echo ("'" ++ (if paused then "pause" else "resume") ++
            "' request sent, waiting until it is recognized by all nodes"),
           Effect.echo (String.intercalate ", " (remainingMembers oldc paused c)
            ++ " members didn't recognized pause state after " ++
            toString (oldc.loop_wait.getD lw) ++ " seconds")])) := by
  refine ⟨fun c x => remaining_iff oldc paused c hnd x, ?_, ?_⟩
  · intro c hfound
    simp only [wait_until_pause_is_applied]
    rw [hfound]
  · intro hnone c hlast
    constructor
    · intro hrem
      simp only [wait_until_pause_is_applied]
      rw [hnone, hlast]
      simp [hrem]
    · intro hrem
      simp only [wait_until_pause_is_applied]
      rw [hnone, hlast]
      simp [hrem]

/-- C7, witness: one api_url-bearing member, never converging but with an
index that did change, is named in the advisory line. -/
theorem pause_wait_names_only_index_changed_witness :
    wait_until_pause_is_applied true
      { leader := some { name := "A", api_url := some "u", index := 5 },
        members := [{ name := "A", api_url := some "u", index := 5 }] }
      10
      [{ members := [{ name := "A", api_url := some "u", index := 7 }] }] =
      [Effect.echo "'pause' request sent, waiting until it is recognized by all nodes",
       Effect.echo "A members didn't recognized pause state after 10 seconds"] := by
  have h := (pause_wait_names_only_index_changed true
    { leader := some { name := "A", api_url := some "u", index := 5 },
      members := [{ name := "A", api_url := some "u", index := 5 }] }
    10
    [{ members := [{ name := "A", api_url := some "u", index := 7 }] }]
    (by decide)).2.2 (by decide)
    { members := [{ name := "A", api_url := some "u", index := 7 }] } rfl
  have h2 := h.2 (by decide)
  simpa using h2

/-- C7, counterexample: `pause --wait` patches the (sole, api_url-bearing)
member, which answers 200; that member never reports `pause=true` within the
budget, yet — because its DCS index never changed — it is *not* named, and the
command even prints the success line, contradicting the claim that every
unconverged member of the original snapshot is named. -/
theorem pause_wait_success_despite_lagging_member :
    toggle_pause
      { leader := some { name := "A", api_url := some "u", index := 5 },
        members := [{ name := "A", api_url := some "u", index := 5 }] }
      true true 10 (fun _ => some ⟨200, ""⟩)
      [{ leader := some { name := "A", api_url := some "u", index := 5 },
         members := [{ name := "A", api_url := some "u", index := 5 }] }] =
      ([Effect.apiPost "A" "config" (.configPatch (some true)),
        Effect.echo "'pause' request sent, waiting until it is recognized by all nodes",
        Effect.echo "Success: cluster management is paused"], none) ∧
    Effect.echo "A members didn't recognized pause state after 10 seconds" ∉
      (toggle_pause
        { leader := some { name := "A", api_url := some "u", index := 5 },
          members := [{ name := "A", api_url := some "u", index := 5 }] }
        true true 10 (fun _ => some ⟨200, ""⟩)
        [{ leader := some { name := "A", api_url := some "u", index := 5 },
           members := [{ name := "A", api_url := some "u", index := 5 }] }]).1 := by
  constructor <;> decide

/-! ### Chain lemmas for the topology traversal -/

/-- With distinct names, finding the non-leader member with a given member's
name returns that member. -/
theorem tfind_nonleader_self {members : List TMember}
    (hnd : (members.map TMember.name).Nodup) {m : TMember} (hm : m ∈ members)
    (hnl : isLeaderRole m = false) :
    members.find? (fun mm => ¬isLeaderRole mm ∧ mm.name = m.name) = some m := by
  induction members with
  | nil => cases hm
  | cons h t ih =>
    rw [List.map_cons, List.nodup_cons] at hnd
    rcases List.mem_cons.1 hm with rfl | hmem
    · rw [List.find?_cons_of_pos _ (by simp [hnl])]
    · have hne : h.name ≠ m.name := fun he =>
        hnd.1 (he ▸ List.mem_map_of_mem TMember.name hmem)
      rw [List.find?_cons_of_neg _ (by simp [hne])]
      exact ih hnd.2 hmem

/-- Unpacking membership in a children list. -/
theorem mem_childrenOf {members : List TMember} {k : Option String} {c : TMember}
    (hc : c ∈ childrenOf members k) :
    c ∈ members ∧ isLeaderRole c = false ∧ resolvedParent members c = k := by
  rcases List.mem_filter.1 hc with ⟨hmem, hp⟩
  simp only [decide_eq_true_eq] at hp
  exact ⟨hmem, by simpa using hp.1, hp.2⟩

/-- One chain step from a child's name goes to its parent key. -/
theorem stepK_of_child {members : List TMember}
    (hnd : (members.map TMember.name).Nodup) {k : Option String} {c : TMember}
    (hc : c ∈ childrenOf members k) :
    stepK members (some c.name) = some k := by
  obtain ⟨hmem, hnl, hp⟩ := mem_childrenOf hc
  simp only [stepK]
  rw [tfind_nonleader_self hnd hmem hnl]
  simp [hp]

/-- No chain step leaves the leader's name: the unique member so named has a
leader role. -/
theorem stepK_leaderName {members : List TMember}
    (hnd : (members.map TMember.name).Nodup) {L : TMember}
    (hL : members.find? isLeaderRole = some L) :
    stepK members (some L.name) = none := by
  have hLmem : L ∈ members := List.mem_of_find?_eq_some hL
  have hLrole : isLeaderRole L = true := List.find?_some hL
  simp only [stepK]
  have hnone : members.find? (fun mm => ¬isLeaderRole mm ∧ mm.name = L.name)
      = none := by
    rw [List.find?_eq_none]
    intro x hx hxp
    simp only [decide_eq_true_eq] at hxp
    have : x = L := List.inj_on_of_nodup_map hnd hx hLmem hxp.2
    rw [this] at hxp
    exact hxp.1 hLrole
  rw [hnone]
  rfl

/-- Splitting an iterated chain walk. -/
theorem iterK_add (members : List TMember) (a b : Nat) (k : Option String) :
    iterK members (a + b) k =
      match iterK members a k with
      | none => none
      | some k' => iterK members b k' := by
  induction a generalizing k with
  | zero => simp [iterK]
  | succ n ih =>
    rw [Nat.succ_add]
    simp only [iterK]
    cases stepK members k with
    | none => rfl
    | some k' => exact ih k'

/-- Extending a hit by one further step. -/
theorem hitsK_extend {members : List TMember} {a t : Option String}
    (h : HitsK members a t) {k : Option String}
    (hs : stepK members t = some k) : HitsK members a k := by
  rcases h with ⟨j, hj, hiter⟩
  refine ⟨j + 1, by omega, ?_⟩
  rw [iterK_add members j 1 a, hiter]
  simp [iterK, hs]

/-- Peeling the first step off a hit. -/
theorem hitsK_first_step {members : List TMember} {n : String}
    {k t : Option String} (hs : stepK members (some n) = some k)
    (h : HitsK members (some n) t) : t = k ∨ HitsK members k t := by
  rcases h with ⟨j, hj, hiter⟩
  match j, hj with
  | j2 + 1, _ =>
    rw [iterK, hs] at hiter
    rcases Nat.eq_zero_or_pos j2 with rfl | hpos
    · simp only [iterK] at hiter
      exact Or.inl (Option.some.inj hiter).symm
    · exact Or.inr ⟨j2, hpos, hiter⟩

/-- The chain from the leader's name hits nothing. -/
theorem leader_no_hits {members : List TMember}
    (hnd : (members.map TMember.name).Nodup) {L : TMember}
    (hL : members.find? isLeaderRole = some L) (t : Option String) :
    ¬HitsK members (some L.name) t := by
  rintro ⟨j, hj, hiter⟩
  match j, hj with
  | j2 + 1, _ =>
    rw [iterK, stepK_leaderName hnd hL] at hiter
    cases hiter

/-- Two hits from the same start are ordered along the unique chain. -/
theorem hitsK_fork {members : List TMember} {a t1 t2 : Option String}
    (h1 : HitsK members a t1) (h2 : HitsK members a t2) :
    t1 = t2 ∨ HitsK members t1 t2 ∨ HitsK members t2 t1 := by
  rcases h1 with ⟨j1, hj1, hi1⟩
  rcases h2 with ⟨j2, hj2, hi2⟩
  rcases Nat.lt_trichotomy j1 j2 with hlt | rfl | hgt
  · right; left
    have hsum : iterK members (j1 + (j2 - j1)) a = some t2 := by
      rwa [Nat.add_sub_cancel' (le_of_lt hlt)]
    rw [iterK_add, hi1] at hsum
    exact ⟨j2 - j1, by omega, hsum⟩
  · rw [hi1] at hi2
    exact Or.inl (Option.some.inj hi2)
  · right; right
    have hsum : iterK members (j2 + (j1 - j2)) a = some t1 := by
      rwa [Nat.add_sub_cancel' (le_of_lt hgt)]
    rw [iterK_add, hi2] at hsum
    exact ⟨j1 - j2, by omega, hsum⟩

/-- A hit from a child lifts through its parent key. -/
theorem child_hits_lift {members : List TMember}
    (hnd : (members.map TMember.name).Nodup) {k : Option String} {c : TMember}
    (hc : c ∈ childrenOf members k) {t : Option String}
    (h : HitsK members (some c.name) t) : t = k ∨ HitsK members k t :=
  hitsK_first_step (stepK_of_child hnd hc) h

/-- A child of a cycle-free node is itself cycle-free. -/
theorem child_no_self {members : List TMember}
    (hnd : (members.map TMember.name).Nodup) {k : Option String}
    (hknc : ¬HitsK members k k) {c : TMember} (hc : c ∈ childrenOf members k) :
    ¬HitsK members (some c.name) (some c.name) := by
  intro hself
  rcases child_hits_lift hnd hc hself with hkc | hkc
  · apply hknc
    have hs := stepK_of_child hnd hc
    refine ⟨1, one_pos, ?_⟩
    simp only [iterK]
    rw [← hkc, hs]
    simp [← hkc]
  · exact hknc (hitsK_extend hkc (stepK_of_child hnd hc))

/-- The chain from one child of a cycle-free node never reaches a sibling. -/
theorem child_not_hits_sibling {members : List TMember}
    (hnd : (members.map TMember.name).Nodup) {k : Option String}
    (hknc : ¬HitsK members k k) {c1 c2 : TMember}
    (hc1 : c1 ∈ childrenOf members k) (hc2 : c2 ∈ childrenOf members k) :
    ¬HitsK members (some c1.name) (some c2.name) := by
  intro h
  rcases child_hits_lift hnd hc1 h with heq | hk2
  · apply hknc
    have hs := stepK_of_child hnd hc2
    refine ⟨1, one_pos, ?_⟩
    simp only [iterK]
    rw [← heq, hs]
    simp [← heq]
  · exact hknc (hitsK_extend hk2 (stepK_of_child hnd hc2))

/-- Everything the traversal yields below a real node is the node itself or a
member whose parent chain reaches the node's name. -/
theorem genTopology_mem {members : List TMember}
    (hnd : (members.map TMember.name).Nodup) :
    ∀ (fuel level : Nat) (x : TMember) (p : Nat × TMember),
      p ∈ genTopology (childrenOf members) fuel level (some x) →
      p.2 = x ∨ (p.2 ∈ members ∧
        HitsK members (some p.2.name) (some x.name)) := by
  intro fuel
  induction fuel with
  | zero => intro level x p hp; cases hp
  | succ n ih =>
    intro level x p hp
    simp only [genTopology] at hp
    rcases List.mem_append.1 hp with hy | hy
    · left
      split at hy
      · cases hy
      · rcases List.mem_singleton.1 hy with rfl
        rfl
    · rcases List.mem_flatMap.1 hy with ⟨c, hc, hpc⟩
      have hkey : stepK members (some c.name) = some (some x.name) :=
        stepK_of_child hnd (by simpa using hc)
      rcases ih (level + 1) c p hpc with rfl | ⟨hpm, hph⟩
      · right
        obtain ⟨hcm, _, _⟩ := mem_childrenOf (by simpa using hc)
        exact ⟨hcm, ⟨1, one_pos, by simp [iterK, hkey]⟩⟩
      · right
        exact ⟨hpm, hitsK_extend hph hkey⟩

/-- The names yielded below a cycle-free real node are pairwise distinct: each
child subtree is distinct (one parent per member), subtrees of distinct
children are disjoint (the upward chain is unique), and the node itself
reappears nowhere below (that would close a cycle through it). -/
theorem genTopology_nodup {members : List TMember}
    (hnd : (members.map TMember.name).Nodup) :
    ∀ (fuel level : Nat) (x : TMember), x ∈ members →
      ¬HitsK members (some x.name) (some x.name) →
      ((genTopology (childrenOf members) fuel level (some x)).map
        (fun p => p.2.name)).Nodup := by
  intro fuel
  induction fuel with
  | zero =>
    intro level x _ _
    simp [genTopology]
  | succ n ih =>
    intro level x hx hxnc
    have hsub : ∀ {c : TMember} {nm : String},
        c ∈ childrenOf members (some x.name) →
        nm ∈ (genTopology (childrenOf members) n (level + 1) (some c)).map
          (fun p => p.2.name) →
        (nm = c.name ∧ c ∈ members) ∨
          HitsK members (some nm) (some c.name) := by
      intro c nm hc hnm
      rcases List.mem_map.1 hnm with ⟨p, hp, rfl⟩
      rcases genTopology_mem hnd n (level + 1) c p hp with rfl | ⟨hpm, hph⟩
      · exact Or.inl ⟨rfl, (mem_childrenOf hc).1⟩
      · exact Or.inr hph
    have hflat : (((childrenOf members (some x.name)).flatMap fun c =>
        genTopology (childrenOf members) n (level + 1) (some c)).map
        (fun p => p.2.name)).Nodup := by
      rw [List.map_flatMap, List.nodup_flatMap]
      constructor
      · intro c hc
        exact ih (level + 1) c (mem_childrenOf hc).1 (child_no_self hnd hxnc hc)
      · have hchn : (childrenOf members (some x.name)).Nodup :=
          (hnd.of_map).filter _
        refine hchn.imp_of_mem ?_
        intro c1 c2 hc1 hc2 hne nm hn1 hn2
        rcases hsub hc1 hn1 with ⟨rfl, hm1⟩ | hh1
        · rcases hsub hc2 hn2 with ⟨heqn, hm2⟩ | hh2
          · exact hne (List.inj_on_of_nodup_map hnd hm1 hm2 heqn)
          · exact child_not_hits_sibling hnd hxnc hc1 hc2 hh2
        · rcases hsub hc2 hn2 with ⟨rfl, hm2⟩ | hh2
          · exact child_not_hits_sibling hnd hxnc hc2 hc1 hh1
          · rcases hitsK_fork hh1 hh2 with heq | hf | hf
            · exact hne (List.inj_on_of_nodup_map hnd
                (mem_childrenOf hc1).1 (mem_childrenOf hc2).1
                (Option.some.inj heq))
            · exact child_not_hits_sibling hnd hxnc hc1 hc2 hf
            · exact child_not_hits_sibling hnd hxnc hc2 hc1 hf
    have hnotmem : x.name ∉ (((childrenOf members (some x.name)).flatMap fun c =>
        genTopology (childrenOf members) n (level + 1) (some c)).map
        (fun p => p.2.name)) := by
      intro hmem
      rw [List.map_flatMap, List.mem_flatMap] at hmem
      rcases hmem with ⟨c, hc, hnm⟩
      have hkey : stepK members (some c.name) = some (some x.name) :=
        stepK_of_child hnd hc
      rcases hsub hc hnm with ⟨heqn, hcm⟩ | hh
      · have hcx : c = x := List.inj_on_of_nodup_map hnd hcm hx heqn.symm
        apply hxnc
        rw [hcx] at hkey
        exact ⟨1, one_pos, by simp [iterK, hkey]⟩
      · exact hxnc (hitsK_extend hh hkey)
    simp only [genTopology, List.map_append]
    split
    · simpa using hflat
    · rw [List.map_singleton, List.singleton_append]
      exact List.nodup_cons.2 ⟨hnotmem, hflat⟩

/-- C3, counterexample: when `replicatefrom` tags form a two-cycle among
replicas (`b` ← `c` ← `b`), neither member is parented to the leader and the
traversal from the leader yields only the leader: member `b` is an input
member that appears zero times in the output, and the leader's children list
is empty (no fallback to the leader happens). -/
theorem topology_cycle_members_dropped :
    (topology_sort [⟨"a", "leader", none⟩, ⟨"b", "replica", some "c"⟩,
      ⟨"c", "replica", some "b"⟩]).map (fun p => p.2.name) = ["a"] ∧
    "b" ∈ ([⟨"a", "leader", none⟩, ⟨"b", "replica", some "c"⟩,
      ⟨"c", "replica", some "b"⟩] : List TMember).map TMember.name ∧
    childrenOf [⟨"a", "leader", none⟩, ⟨"b", "replica", some "c"⟩,
      ⟨"c", "replica", some "b"⟩] (some "a") = [] := by
  refine ⟨?_, ?_, ?_⟩ <;> decide

/-- C3 (amended): for an input member list with distinct names and a leader
with a non-empty name, the topology builder yields the leader first, yields no
member name twice (the traversal is finite and duplicate-free), and yields
only input members; replicas whose `replicatefrom` chain never reaches the
leader (e.g. members of a `replicatefrom` cycle) are omitted from the output
rather than parented to the leader. -/
theorem topology_sort_leader_first_no_dup (members : List TMember) (L : TMember)
    (hnd : (members.map TMember.name).Nodup)
    (hL : members.find? isLeaderRole = some L) (hname : L.name ≠ "") :
    (∃ rest, topology_sort members = (0, L) :: rest) ∧
    ((topology_sort members).map (fun p => p.2.name)).Nodup ∧
    (∀ p ∈ topology_sort members, p.2 ∈ members) := by
  have hLmem : L ∈ members := List.mem_of_find?_eq_some hL
  have hnc : ¬HitsK members (some L.name) (some L.name) :=
    leader_no_hits hnd hL _
  refine ⟨?_, ?_, ?_⟩
  · refine ⟨(childrenOf members (some L.name)).flatMap fun c =>
      genTopology (childrenOf members) members.length 1 (some c), ?_⟩
    simp only [topology_sort, hL, genTopology]
    rw [if_neg (by simp [hname])]
    rfl
  · simp only [topology_sort, hL]
    exact genTopology_nodup hnd (members.length + 1) 0 L hLmem hnc
  · intro p hp
    simp only [topology_sort, hL] at hp
    rcases genTopology_mem hnd _ _ _ _ hp with hpe | ⟨hm, _⟩
    · rw [hpe]; exact hLmem
    · exact hm

/-- C3, witness. -/
theorem topology_sort_leader_first_no_dup_witness :
    (∃ rest, topology_sort [⟨"a", "leader", none⟩, ⟨"b", "replica", none⟩,
      ⟨"c", "replica", some "b"⟩] = (0, ⟨"a", "leader", none⟩) :: rest) ∧
    ((topology_sort [⟨"a", "leader", none⟩, ⟨"b", "replica", none⟩,
      ⟨"c", "replica", some "b"⟩]).map (fun p => p.2.name)).Nodup := by
  have h := topology_sort_leader_first_no_dup
    [⟨"a", "leader", none⟩, ⟨"b", "replica", none⟩, ⟨"c", "replica", some "b"⟩]
    ⟨"a", "leader", none⟩ (by decide) (by decide) (by decide)
  exact ⟨h.1, h.2.1⟩

end PatroniCtl
